import Mathlib

/-!
Verification of the Img2JXL batch conversion tool (src/convert_to_jxl.py)
against its specification.

The Python source is shallowly embedded: filesystem state and the external
codec subprocess are passed in explicitly as environment values, pure
computations of the source are translated into Lean functions, and the
worker-pool completion order is an explicit permutation of the discovered
file list.
-/

namespace Img2JXL

/-- Model of a `pathlib.Path` value as the source uses it: a directory part
and a final component (the file name).  `Path(root) / file` corresponds to
`⟨root, file⟩`. -/
structure Path where
  dir : String
  name : String
deriving DecidableEq, Repr

/-- Rendering of a path back to a string, as `str(path)` does. -/
def Path.toStr (p : Path) : String :=
  if p.dir = "" then p.name else p.dir ++ "/" ++ p.name

/-- Zero-based positions of the dot character in a character list; used to
model Python's `str.rfind(".")`. -/
def dotPositions (cs : List Char) : List Nat :=
  (List.range cs.length).filter (fun i => cs.getD i ' ' = '.')

/-- Python's `name.rfind(".")`, returning `none` instead of `-1`. -/
def rfindDot (name : String) : Option Nat :=
  (dotPositions name.toList).getLast?

/-- The extension of a file name, following `pathlib.PurePath.suffix`: the
substring from the last dot, provided that dot is neither the first nor the
last character; otherwise the empty string. -/
def nameSuffix (name : String) : String :=
  match rfindDot name with
  | some i =>
      if 0 < i ∧ i < name.toList.length - 1 then String.mk (name.toList.drop i) else ""
  | none => ""

/-- Replacement of a file name's extension, following
`pathlib.PurePath.with_suffix` in the non-raising case the source exercises
(the new suffix is the valid `".jxl"`). -/
def withSuffixName (name sfx : String) : String :=
  let old := nameSuffix name
  if old = "" then name ++ sfx
  else String.mk (name.toList.take (name.toList.length - old.toList.length)) ++ sfx

/-- The `suffix` property of a path (extension of its final component). -/
def Path.suffix (p : Path) : String := nameSuffix p.name

/-- The `with_suffix` method of a path: same directory, extension replaced. -/
def Path.with_suffix (p : Path) (sfx : String) : Path :=
  ⟨p.dir, withSuffixName p.name sfx⟩

/-- Python's `str.lower()` (the extensions involved are all ASCII). -/
def str_lower (s : String) : String := String.mk (s.toList.map Char.toLower)

/-- The allow-list of input extensions, line 18 of the source.  The Python
set is modelled as a list; only membership is ever used. -/
def SUPPORTED_FORMATS : List String :=
  [".jpg", ".jpeg", ".png", ".bmp", ".gif", ".tiff", ".tif", ".webp"]

/-- A directory tree: a named directory that is readable or not, with
subdirectories and regular-file names.  This is the filesystem environment
`os.walk` traverses. -/
inductive FSTree where
  | node (name : String) (readable : Bool) (subdirs : List FSTree) (files : List String)

/-- Name of the directory at the root of a tree. -/
def FSTree.nodeName : FSTree → String
  | .node n _ _ _ => n

mutual

/-- Model of `os.walk(top)` (top-down, `onerror=None`, the source's call):
yields `(root, dirnames, filenames)` triples.  When `scandir` fails on an
unreadable directory, CPython calls `onerror` — which is `None` here — and
yields nothing for that directory, silently skipping its whole subtree. -/
def FSTree.walkFrom : FSTree → String → List (String × List String × List String)
  | .node _ readable subdirs files, path =>
    if readable then
      (path, subdirs.map FSTree.nodeName, files) :: walkForest subdirs path
    else []

/-- Walk of the subdirectories of a directory, in order. -/
def walkForest : List FSTree → String → List (String × List String × List String)
  | [], _ => []
  | t :: ts, path => FSTree.walkFrom t (path ++ "/" ++ t.nodeName) ++ walkForest ts path

end

/-- The converter's configuration, lines 21–30 of the source.  The mutable
result lists are modelled separately as the run state of `convert_all`. -/
structure ImageConverter where
  root_dir : String
  max_workers : Int
  effort : Int
deriving DecidableEq, Repr

/-- The constructor `ImageConverter.__init__` (line 30): the effort level is
clamped into `[1, 9]` by `min(max(effort, 1), 9)`.  The `cjxl` availability
check is environmental and out of this model. -/
def ImageConverter.init (root_dir : String) (max_workers : Int) (effort : Int) :
    ImageConverter :=
  ⟨root_dir, max_workers, min (max effort 1) 9⟩

/-- The method `find_images` (lines 39–47): walk the root directory and keep
every file whose lower-cased extension is in the allow-list. -/
def find_images (c : ImageConverter) (fs : FSTree) : List Path :=
  (FSTree.walkFrom fs c.root_dir).flatMap (fun e =>
    e.2.2.filterMap (fun file =>
      let file_path : Path := ⟨e.1, file⟩
      if str_lower file_path.suffix ∈ SUPPORTED_FORMATS then some file_path else none))

/-- What one `subprocess.run` call can come back as inside the `try` block of
`convert_image`: a normal exit (return code, captured stdout, captured
stderr), a `subprocess.TimeoutExpired`, or any other exception raised while
preparing or running the subprocess, carrying its `str(e)` text. -/
inductive ProcResult where
  | normal (returncode : Int) (stdout : String) (stderr : String)
  | timeout
  | raised (msg : String)
deriving DecidableEq, Repr

/-- The environment one `convert_image` call observes: whether the output
path exists before the call, what running a given command line returns, and
whether the output path exists once the process has returned. -/
structure Env where
  outputExistsBefore : Bool
  run : List String → ProcResult
  outputExistsAfter : Bool

/-- The command list built at lines 66–73 of the source: the executable name
followed by the input path, the output path, the lossless-distance flag, the
effort flag, and the single-thread hint, in that order. -/
def build_cmd (effort : Int) (image_path output_path : Path) : List String :=
  ["cjxl", image_path.toStr, output_path.toStr, "-d", "0", "-e", toString effort,
   "--num_threads=1"]

/-- Python's `a or b` on strings: the left operand when it is non-empty
(truthy), otherwise the right one. -/
def pyOr (a b : String) : String := if a = "" then b else a

/-- Python's `str.strip()` (whitespace around the captured streams, line 86):
leading and trailing whitespace characters removed. -/
def pyStrip (s : String) : String :=
  String.mk
    (((s.toList.dropWhile Char.isWhitespace).reverse.dropWhile Char.isWhitespace).reverse)

/-- The method `convert_image` (lines 49–92), returning the source's
`(success, original path, new path, error message)` tuple.  The skip guard
runs first; the subprocess result is the environment's answer to the
command list of lines 66–73; captured streams are stripped before the
`or`-chain of line 86.  The third component is `none` exactly where the
source returns `None`. -/
def convert_image (c : ImageConverter) (env : Env) (image_path : Path) :
    Bool × Path × Option Path × String :=
  let output_path := image_path.with_suffix ".jxl"
  if env.outputExistsBefore then
    (false, image_path, some output_path, "目标文件已存在")
  else
    let cmd := build_cmd c.effort image_path output_path
    match env.run cmd with
    | .normal returncode stdout stderr =>
        if returncode = 0 ∧ env.outputExistsAfter = true then
          (true, image_path, some output_path, "")
        else
          (false, image_path, none, pyOr (pyStrip stderr) (pyOr (pyStrip stdout) "转换失败"))
    | .timeout => (false, image_path, none, "转换超时")
    | .raised msg => (false, image_path, none, msg)

/-- The two result lists mutated while `convert_all` collects completed
futures (lines 122 and 129).  The second component of a converted pair keeps
the `Option` of the result tuple: the source appends whatever `new_path`
holds. -/
structure RunLists where
  converted_files : List (Path × Option Path)
  failed_files : List (Path × String)
deriving DecidableEq, Repr

/-- Recording of one completed future (lines 114–133): a success appends
`(original, new_path)` to `converted_files`, anything else appends
`(original, error)` to `failed_files`. -/
def recordOutcome (st : RunLists) (r : Bool × Path × Option Path × String) : RunLists :=
  match r with
  | (true, original, new_path, _) =>
      ⟨st.converted_files ++ [(original, new_path)], st.failed_files⟩
  | (false, original, _, error) =>
      ⟨st.converted_files, st.failed_files ++ [(original, error)]⟩

/-- The collection loop of `convert_all` (lines 108–133): every submitted
file's future yields exactly one result, delivered in completion order —
modelled as a fold over `order`, an arbitrary permutation of the discovered
image list.  `envOf` gives the environment each file's conversion observes. -/
def convert_all_lists (c : ImageConverter) (envOf : Path → Env) (order : List Path) :
    RunLists :=
  order.foldl (fun st img => recordOutcome st (convert_image c (envOf img) img)) ⟨[], []⟩

/-- The compression-ratio expression of lines 126 and 147:
`new / original * 100` guarded by `original > 0`, else `0`.  Sizes are
rationals here; the guard structure is exactly the source's conditional
expression. -/
def report_ratio (original_size new_size : ℚ) : ℚ :=
  if original_size > 0 then new_size / original_size * 100 else 0

/-- Byte count scaled to mebibytes as on lines 124–125: `size / 1024 / 1024`. -/
def toMB (bytes : Nat) : ℚ := (bytes : ℚ) / 1024 / 1024

/-- The per-file report data of lines 124–126, computed when the outcome is
processed: both paths are statted through `stat`, the filesystem's answer at
that moment, and the ratio guard is applied to the mebibyte figures. -/
def per_file_report (stat : Path → Nat) (original : Path) (new_path : Path) : ℚ × ℚ × ℚ :=
  let original_size := toMB (stat original)
  let new_size := toMB (stat new_path)
  (original_size, new_size, report_ratio original_size new_size)

/-- The summary total of original bytes, line 145: every converted pair's
original path is statted again through `stat`, the filesystem's answer at
summary time. -/
def total_original_bytes (stat : Path → Nat) (converted : List (Path × Option Path)) : Nat :=
  (converted.map (fun f => stat f.1)).sum

/-- Stat of the output component of a converted pair for line 146.  In every
state `convert_all` produces, the component is `some` (a success result
always carries its output path); the `none` branch is unreachable there. -/
def statNew (stat : Path → Nat) : Option Path → Nat
  | some p => stat p
  | none => 0

/-- The summary total of output bytes, line 146. -/
def total_new_bytes (stat : Path → Nat) (converted : List (Path × Option Path)) : Nat :=
  (converted.map (fun f => statNew stat f.2)).sum

/-- The overall ratio of line 147: the same guarded expression applied to the
raw byte totals. -/
def overall_ratio (stat : Path → Nat) (converted : List (Path × Option Path)) : ℚ :=
  report_ratio (total_original_bytes stat converted) (total_new_bytes stat converted)

/-- Report of `delete_originals` (lines 153–172): either the early
"nothing to delete" return, or the list of paths `unlink` was called on
together with the final `(deleted, failed)` tally. -/
inductive DeleteReport where
  | nothingToDelete
  | tally (attempted : List Path) (deleted : Nat) (failed : Nat)
deriving DecidableEq, Repr

/-- The deletion loop of lines 163–170: each original is unlinked in order;
`unlinkOk` says whether that unlink call succeeds or raises.  The attempted
list traces every `unlink` call made. -/
def delete_loop (unlinkOk : Path → Bool) (converted : List (Path × Option Path)) :
    List Path × Nat × Nat :=
  converted.foldl
    (fun acc f =>
      if unlinkOk f.1 then (acc.1 ++ [f.1], acc.2.1 + 1, acc.2.2)
      else (acc.1 ++ [f.1], acc.2.1, acc.2.2 + 1))
    ([], 0, 0)

/-- The method `delete_originals` (lines 153–172): an empty converted list
reports "nothing to delete" and performs no deletion; otherwise every pair's
original is attempted independently and the tally is reported. -/
def delete_originals (unlinkOk : Path → Bool) (converted : List (Path × Option Path)) :
    DeleteReport :=
  if converted.isEmpty then .nothingToDelete
  else
    let r := delete_loop unlinkOk converted
    .tally r.1 r.2.1 r.2.2

mutual

/-- Enumeration of every file in a tree regardless of readability: the work a
discovery pass would have to count if nothing were skipped.  Used to compare
against what `find_images` actually returns. -/
def FSTree.allFilesFrom : FSTree → String → List Path
  | .node _ _ subdirs files, path =>
    files.map (fun f => ⟨path, f⟩) ++ allFilesForest subdirs path

/-- Readability-blind enumeration over a list of subtrees. -/
def allFilesForest : List FSTree → String → List Path
  | [], _ => []
  | t :: ts, path => FSTree.allFilesFrom t (path ++ "/" ++ t.nodeName) ++ allFilesForest ts path

end

/-- Concrete sample input: a PNG file in the target directory. -/
def exPathA : Path := ⟨"/top", "a.png"⟩

/-- Concrete sample input: a JPG file in the target directory. -/
def exPathB : Path := ⟨"/top", "b.jpg"⟩

/-- Environment for a conversion that succeeds: no pre-existing output, the
codec exits 0, the output file exists afterwards. -/
def exEnvSuccess : Env := ⟨false, fun _ => .normal 0 "" "", true⟩

/-- Environment for a codec failure: exit code 1, whitespace-only captured
stderr, a diagnostic on stdout. -/
def exEnvToolFail : Env := ⟨false, fun _ => .normal 1 " boom \n" "  ", true⟩

/-- Environment in which the output file already exists before the call. -/
def exEnvSkip : Env := ⟨true, fun _ => .normal 0 "" "", true⟩

/-- Environment in which the subprocess hits the 300-second timeout. -/
def exEnvTimeout : Env := ⟨false, fun _ => .timeout, false⟩

/-- Environment in which preparing or running the subprocess raises. -/
def exEnvRaised : Env := ⟨false, fun _ => .raised "oops", false⟩

/-- A converter configured with the defaults of the source (8 workers,
effort 7). -/
def exConverter : ImageConverter := ImageConverter.init "/top" 8 7

/-- A directory tree whose only image sits inside an unreadable
subdirectory. -/
def exUnreadableTree : FSTree :=
  .node "root" true [.node "secret" false [] ["x.png"]] []

/-- A fully readable directory tree with one image at the top and one in a
subdirectory. -/
def exReadableTree : FSTree :=
  .node "root" true [.node "sub" true [] ["x.png"]] ["a.JPG", "b.txt"]

/-! Helper lemmas shared by the claim theorems. -/

/-- The second component of a `convert_image` result is always the input path
(the source returns `image_path` in every branch). -/
theorem convert_image_original (c : ImageConverter) (env : Env) (p : Path) :
    (convert_image c env p).2.1 = p := by
  unfold convert_image
  cases h : env.outputExistsBefore
  · simp only [Bool.false_eq_true, if_false]
    cases env.run (build_cmd c.effort p (p.with_suffix ".jxl")) with
    | normal rc out err => dsimp only; split <;> rfl
    | timeout => rfl
    | raised m => rfl
  · simp

/-- A successful `convert_image` result implies the output file existed when
the process returned (half of the success condition of line 83). -/
theorem convert_image_success_after (c : ImageConverter) (env : Env) (p : Path)
    (h : (convert_image c env p).1 = true) : env.outputExistsAfter = true := by
  unfold convert_image at h
  cases hb : env.outputExistsBefore
  · rw [hb] at h
    simp only [Bool.false_eq_true, if_false] at h
    cases hr : env.run (build_cmd c.effort p (p.with_suffix ".jxl")) with
    | normal rc out err =>
        rw [hr] at h
        dsimp only at h
        split at h
        · exact (by assumption : rc = 0 ∧ env.outputExistsAfter = true).2
        · exact absurd h (by simp)
    | timeout => rw [hr] at h; exact absurd h (by simp)
    | raised m => rw [hr] at h; exact absurd h (by simp)
  · rw [hb] at h
    exact absurd h (by simp)

/-- C3: when the derived output path (same stem, `.jxl` extension) already
exists, `convert_image` returns the skip tuple `(False, path, output path,
"目标文件已存在")` ("target file already exists") — the first conjunct holds for
every environment whatever its subprocess answer, so the codec is never
consulted; and whenever a first run returned Success for a file and the
first run's outputs persist on disk, a second run returns that skip tuple
for the file, so a previously successful file yields a Skipped, never a new
Success. -/
theorem c3_skip_guard_and_rerun :
    (∀ (c : ImageConverter) (env : Env) (p : Path),
       env.outputExistsBefore = true →
       convert_image c env p = (false, p, some (p.with_suffix ".jxl"), "目标文件已存在")) ∧
    (∀ (c : ImageConverter) (env1 env2 : Env) (p : Path),
       (convert_image c env1 p).1 = true →
       env2.outputExistsBefore = env1.outputExistsAfter →
       convert_image c env2 p = (false, p, some (p.with_suffix ".jxl"), "目标文件已存在")) := by
  constructor
  · intro c env p h
    simp [convert_image, h]
  · intro c env1 env2 p hsucc hpers
    have hafter := convert_image_success_after c env1 p hsucc
    have hb : env2.outputExistsBefore = true := by rw [hpers, hafter]
    simp [convert_image, hb]

/-- Witness for C3 at concrete inputs: the skip tuple for a pre-existing
output, and the skip on a second run after a successful first run. -/
theorem c3_witness :
    convert_image exConverter exEnvSkip exPathA =
        (false, exPathA, some (exPathA.with_suffix ".jxl"), "目标文件已存在") ∧
    convert_image exConverter exEnvSkip exPathB =
        (false, exPathB, some (exPathB.with_suffix ".jxl"), "目标文件已存在") :=
  ⟨c3_skip_guard_and_rerun.1 exConverter exEnvSkip exPathA rfl,
   c3_skip_guard_and_rerun.2 exConverter exEnvSuccess exEnvSkip exPathB (by decide) rfl⟩

/-- C5: `convert_image` is a total function (its Lean type returns a plain
tuple, mirroring that every code path of lines 54–92 returns a value and the
enclosing `try` converts every exception), and on the two error paths it
returns the claimed tuples: a timeout gives `Failed{"转换超时"}` ("conversion
timed out") and any other exception raised while preparing or running the
subprocess gives `Failed` with that error's text. -/
theorem c5_error_cases_total (c : ImageConverter) (env : Env) (p : Path)
    (hexists : env.outputExistsBefore = false) :
    (env.run (build_cmd c.effort p (p.with_suffix ".jxl")) = .timeout →
       convert_image c env p = (false, p, none, "转换超时")) ∧
    (∀ msg, env.run (build_cmd c.effort p (p.with_suffix ".jxl")) = .raised msg →
       convert_image c env p = (false, p, none, msg)) := by
  constructor
  · intro h
    simp [convert_image, hexists, h]
  · intro msg h
    simp [convert_image, hexists, h]

/-- Witness for C5: the timeout environment and the raising environment at a
concrete file. -/
theorem c5_witness :
    convert_image exConverter exEnvTimeout exPathA = (false, exPathA, none, "转换超时") ∧
    convert_image exConverter exEnvRaised exPathA = (false, exPathA, none, "oops") :=
  ⟨(c5_error_cases_total exConverter exEnvTimeout exPathA rfl).1 rfl,
   (c5_error_cases_total exConverter exEnvRaised exPathA rfl).2 "oops" rfl⟩

/-- C2: when the output path does not already exist and the subprocess exits
normally, the result is Success exactly when the exit code is 0 and the
output file exists afterwards; in every other normal-exit case the result is
the Failed tuple whose diagnostic is the captured-and-stripped stderr when
non-empty, else the captured-and-stripped stdout when non-empty, else the
fixed message "转换失败" ("conversion failed").  (The source strips both
captured streams before the `or`-chain of line 86.) -/
theorem c2_success_iff_and_diagnostic (c : ImageConverter) (env : Env) (p : Path)
    (hexists : env.outputExistsBefore = false) (rc : Int) (out err : String)
    (hrun : env.run (build_cmd c.effort p (p.with_suffix ".jxl")) = .normal rc out err) :
    ((convert_image c env p).1 = true ↔ rc = 0 ∧ env.outputExistsAfter = true) ∧
    (¬(rc = 0 ∧ env.outputExistsAfter = true) →
       convert_image c env p =
         (false, p, none,
           if pyStrip err ≠ "" then pyStrip err
           else if pyStrip out ≠ "" then pyStrip out else "转换失败")) := by
  have hro : convert_image c env p =
      (if rc = 0 ∧ env.outputExistsAfter = true then
        (true, p, some (p.with_suffix ".jxl"), "")
      else (false, p, none, pyOr (pyStrip err) (pyOr (pyStrip out) "转换失败"))) := by
    simp [convert_image, hexists, hrun]
  constructor
  · constructor
    · intro h1
      by_contra hcond
      rw [hro, if_neg hcond] at h1
      simp at h1
    · intro hcond
      rw [hro, if_pos hcond]
  · intro hcond
    rw [hro, if_neg hcond]
    have hmsg : pyOr (pyStrip err) (pyOr (pyStrip out) "转换失败") =
        if pyStrip err ≠ "" then pyStrip err
        else if pyStrip out ≠ "" then pyStrip out else "转换失败" := by
      simp only [pyOr]
      split_ifs <;> simp_all
    rw [hmsg]

/-- Witness for C2: concrete codec failure (exit 1) with whitespace-only
stderr and a stdout diagnostic; the reported text is the stripped stdout. -/
theorem c2_witness :
    convert_image exConverter exEnvToolFail exPathA = (false, exPathA, none, "boom") := by
  have h := c2_success_iff_and_diagnostic exConverter exEnvToolFail exPathA rfl 1
    " boom \n" "  " rfl
  rw [(h.2 (by decide) : _)]
  decide

/-- C4: the command list built for a converter constructed with effort `e`
is exactly the executable name followed by, in order, the input path, the
output path, `-d 0`, `-e <clamped effort>`, `--num_threads=1`, where the
stored effort is `min (max e 1) 9` — below 1 clamps to 1, above 9 clamps to
9, in-range passes through; and the behaviour of `convert_image` depends on
the subprocess environment only through its answer to exactly that command
list (two environments agreeing on it and on the existence flags are
indistinguishable), so the codec is invoked with exactly these arguments. -/
theorem c4_invocation_args_and_clamp :
    (∀ (r : String) (w e : Int) (p : Path),
       build_cmd (ImageConverter.init r w e).effort p (p.with_suffix ".jxl") =
         "cjxl" :: [p.toStr, (p.with_suffix ".jxl").toStr, "-d", "0", "-e",
           toString (min (max e 1) 9), "--num_threads=1"]) ∧
    (∀ (r : String) (w e : Int), e < 1 → (ImageConverter.init r w e).effort = 1) ∧
    (∀ (r : String) (w e : Int), 9 < e → (ImageConverter.init r w e).effort = 9) ∧
    (∀ (r : String) (w e : Int), 1 ≤ e → e ≤ 9 → (ImageConverter.init r w e).effort = e) ∧
    (∀ (c : ImageConverter) (env env2 : Env) (p : Path),
       env.outputExistsBefore = env2.outputExistsBefore →
       env.outputExistsAfter = env2.outputExistsAfter →
       env.run (build_cmd c.effort p (p.with_suffix ".jxl")) =
         env2.run (build_cmd c.effort p (p.with_suffix ".jxl")) →
       convert_image c env p = convert_image c env2 p) := by
  refine ⟨fun r w e p => rfl, ?_, ?_, ?_, ?_⟩
  · intro r w e h
    simp only [ImageConverter.init]
    omega
  · intro r w e h
    simp only [ImageConverter.init]
    omega
  · intro r w e h1 h2
    simp only [ImageConverter.init]
    omega
  · intro c env env2 p h1 h2 h3
    simp only [convert_image]
    rw [h1, h2, h3]

/-- Witness for C4: the clamp at 0, 15 and 7, and the concrete command list
for the default-effort converter. -/
theorem c4_witness :
    (ImageConverter.init "/top" 8 0).effort = 1 ∧
    (ImageConverter.init "/top" 8 15).effort = 9 ∧
    (ImageConverter.init "/top" 8 7).effort = 7 ∧
    build_cmd (ImageConverter.init "/top" 8 7).effort exPathA (exPathA.with_suffix ".jxl") =
      "cjxl" :: [exPathA.toStr, (exPathA.with_suffix ".jxl").toStr, "-d", "0", "-e",
        toString (min (max (7 : Int) 1) 9), "--num_threads=1"] :=
  ⟨c4_invocation_args_and_clamp.2.1 "/top" 8 0 (by decide),
   c4_invocation_args_and_clamp.2.2.1 "/top" 8 15 (by decide),
   c4_invocation_args_and_clamp.2.2.2.1 "/top" 8 7 (by decide) (by decide),
   c4_invocation_args_and_clamp.1 "/top" 8 7 exPathA⟩

/-- Recording one completed future grows the two result lists by exactly one
entry in total, whatever the outcome tuple is. -/
theorem recordOutcome_counts (st : RunLists) (r : Bool × Path × Option Path × String) :
    (recordOutcome st r).converted_files.length + (recordOutcome st r).failed_files.length =
      st.converted_files.length + st.failed_files.length + 1 := by
  rcases r with ⟨b, o, np, e⟩
  cases b <;> simp [recordOutcome] <;> omega

/-- Invariant of the collection fold: the result lists grow by exactly the
number of completions processed. -/
theorem convert_all_fold_counts (c : ImageConverter) (envOf : Path → Env) :
    ∀ (order : List Path) (st : RunLists),
      ((order.foldl (fun st img => recordOutcome st (convert_image c (envOf img) img))
            st).converted_files.length +
        (order.foldl (fun st img => recordOutcome st (convert_image c (envOf img) img))
            st).failed_files.length) =
      st.converted_files.length + st.failed_files.length + order.length := by
  intro order
  induction order with
  | nil => intro st; simp
  | cons a l ih =>
      intro st
      simp only [List.foldl_cons, List.length_cons]
      rw [ih]
      have h := recordOutcome_counts st (convert_image c (envOf a) a)
      omega

/-- C1: no task is dropped — for every batch whose completion order is a
permutation of the discovered image list (each submitted future is collected
exactly once by `as_completed`), the number of Success outcomes recorded in
`converted_files` plus the number of Failed-or-Skipped outcomes recorded in
`failed_files` equals the number of discovered files. -/
theorem c1_outcome_conservation (c : ImageConverter) (envOf : Path → Env)
    (images order : List Path) (hperm : order.Perm images) :
    (convert_all_lists c envOf order).converted_files.length +
      (convert_all_lists c envOf order).failed_files.length = images.length := by
  unfold convert_all_lists
  rw [convert_all_fold_counts]
  simp [hperm.length_eq]

/-- Witness for C1: two files completing in the reverse of submission order,
one succeeding and one failing, give one converted plus one failed entry. -/
theorem c1_witness :
    (convert_all_lists exConverter
          (fun p => if p = exPathA then exEnvSuccess else exEnvToolFail)
          [exPathB, exPathA]).converted_files.length +
      (convert_all_lists exConverter
          (fun p => if p = exPathA then exEnvSuccess else exEnvToolFail)
          [exPathB, exPathA]).failed_files.length = 2 :=
  c1_outcome_conservation exConverter
    (fun p => if p = exPathA then exEnvSuccess else exEnvToolFail)
    [exPathA, exPathB] [exPathB, exPathA] (by decide)

/-- Invariant of the deletion fold: the attempted list extends by every
original in order, and the two tallies together grow by the list length. -/
theorem delete_loop_invariant (u : Path → Bool) :
    ∀ (l : List (Path × Option Path)) (acc : List Path × Nat × Nat),
      (l.foldl (fun acc f =>
          if u f.1 then (acc.1 ++ [f.1], acc.2.1 + 1, acc.2.2)
          else (acc.1 ++ [f.1], acc.2.1, acc.2.2 + 1)) acc).1 =
        acc.1 ++ l.map (fun f => f.1) ∧
      (l.foldl (fun acc f =>
          if u f.1 then (acc.1 ++ [f.1], acc.2.1 + 1, acc.2.2)
          else (acc.1 ++ [f.1], acc.2.1, acc.2.2 + 1)) acc).2.1 +
        (l.foldl (fun acc f =>
            if u f.1 then (acc.1 ++ [f.1], acc.2.1 + 1, acc.2.2)
            else (acc.1 ++ [f.1], acc.2.1, acc.2.2 + 1)) acc).2.2 =
        acc.2.1 + acc.2.2 + l.length := by
  intro l
  induction l with
  | nil => intro acc; simp
  | cons a l ih =>
      intro acc
      simp only [List.foldl_cons, List.map_cons, List.length_cons]
      by_cases h : u a.1
      · rw [if_pos h]
        obtain ⟨ih1, ih2⟩ := ih (acc.1 ++ [a.1], acc.2.1 + 1, acc.2.2)
        refine ⟨?_, ?_⟩
        · rw [ih1]; simp
        · rw [ih2]; dsimp only; omega
      · rw [if_neg h]
        obtain ⟨ih1, ih2⟩ := ih (acc.1 ++ [a.1], acc.2.1, acc.2.2 + 1)
        refine ⟨?_, ?_⟩
        · rw [ih1]; simp
        · rw [ih2]; dsimp only; omega

/-- C8: for a Success list of size K, `delete_originals` attempts exactly K
deletions — every pair's original is unlinked exactly once, in order, and
the attempted list never depends on earlier failures (each deletion is
attempted independently) — and the reported tally satisfies
`deleted + failed = K`; an empty Success list yields the "nothing to delete"
report and no deletion attempt. -/
theorem c8_deletion_tally (unlinkOk : Path → Bool)
    (converted : List (Path × Option Path)) :
    (delete_loop unlinkOk converted).1 = converted.map (fun f => f.1) ∧
    (delete_loop unlinkOk converted).2.1 + (delete_loop unlinkOk converted).2.2 =
      converted.length ∧
    (converted = [] ↔ delete_originals unlinkOk converted = .nothingToDelete) ∧
    (converted ≠ [] →
       delete_originals unlinkOk converted =
         .tally (converted.map (fun f => f.1)) (delete_loop unlinkOk converted).2.1
           (delete_loop unlinkOk converted).2.2) := by
  obtain ⟨h1, h2⟩ := delete_loop_invariant unlinkOk converted ([], 0, 0)
  have hl1 : (delete_loop unlinkOk converted).1 = converted.map (fun f => f.1) := by
    unfold delete_loop
    rw [h1]
    simp
  have hl2 : (delete_loop unlinkOk converted).2.1 + (delete_loop unlinkOk converted).2.2 =
      converted.length := by
    unfold delete_loop
    rw [h2]
    simp
  refine ⟨hl1, hl2, ?_, ?_⟩
  · constructor
    · intro h
      subst h
      rfl
    · intro h
      by_contra hne
      have hE : converted.isEmpty = false := by simpa [List.isEmpty_iff] using hne
      simp only [delete_originals, hE, Bool.false_eq_true, if_false] at h
      cases h
  · intro hne
    have hE : converted.isEmpty = false := by simpa [List.isEmpty_iff] using hne
    simp only [delete_originals, hE, Bool.false_eq_true, if_false, hl1]

/-- Witness for C8: three originals, the middle deletion failing, still
yields three attempts with `deleted + failed = 3`. -/
theorem c8_witness :
    (delete_loop (fun p => p.name ≠ "b.jpg")
        [(exPathA, some (exPathA.with_suffix ".jxl")),
         (exPathB, some (exPathB.with_suffix ".jxl")),
         (⟨"/top", "c.png"⟩, some ⟨"/top", "c.jxl"⟩)]).1 =
      [exPathA, exPathB, ⟨"/top", "c.png"⟩] ∧
    (delete_loop (fun p => p.name ≠ "b.jpg")
        [(exPathA, some (exPathA.with_suffix ".jxl")),
         (exPathB, some (exPathB.with_suffix ".jxl")),
         (⟨"/top", "c.png"⟩, some ⟨"/top", "c.jxl"⟩)]).2.1 +
      (delete_loop (fun p => p.name ≠ "b.jpg")
          [(exPathA, some (exPathA.with_suffix ".jxl")),
           (exPathB, some (exPathB.with_suffix ".jxl")),
           (⟨"/top", "c.png"⟩, some ⟨"/top", "c.jxl"⟩)]).2.2 = 3 := by
  have h := c8_deletion_tally (fun p => p.name ≠ "b.jpg")
    [(exPathA, some (exPathA.with_suffix ".jxl")),
     (exPathB, some (exPathB.with_suffix ".jxl")),
     (⟨"/top", "c.png"⟩, some ⟨"/top", "c.jxl"⟩)]
  exact ⟨by rw [h.1]; decide, h.2.1⟩

/-- C9: the reported compression ratio — both the per-file figure of line
126 (computed on mebibyte values) and the batch figure of line 147 (computed
on raw byte totals) — equals `outputSize / originalSize * 100` whenever the
original size is positive, and is 0 whenever the original size is 0, so the
guarded expression never divides by zero. -/
theorem c9_ratio_zero_guard :
    (∀ (stat : Path → Nat) (original new_path : Path),
       (stat original = 0 → (per_file_report stat original new_path).2.2 = 0) ∧
       (0 < stat original →
         (per_file_report stat original new_path).2.2 =
           (stat new_path : ℚ) / (stat original : ℚ) * 100)) ∧
    (∀ (stat : Path → Nat) (conv : List (Path × Option Path)),
       (total_original_bytes stat conv = 0 → overall_ratio stat conv = 0) ∧
       (0 < total_original_bytes stat conv →
         overall_ratio stat conv =
           (total_new_bytes stat conv : ℚ) / (total_original_bytes stat conv : ℚ) * 100)) := by
  constructor
  · intro stat original new_path
    constructor
    · intro h
      simp [per_file_report, toMB, report_ratio, h]
    · intro h
      have hq : (0 : ℚ) < (stat original : ℚ) := by exact_mod_cast h
      have hpos : (0 : ℚ) < toMB (stat original) := by
        unfold toMB
        positivity
      simp only [per_file_report, report_ratio, if_pos hpos]
      unfold toMB
      field_simp
  · intro stat conv
    constructor
    · intro h
      simp [overall_ratio, report_ratio, h]
    · intro h
      have hq : (0 : ℚ) < (total_original_bytes stat conv : ℚ) := by exact_mod_cast h
      simp [overall_ratio, report_ratio, hq]

/-- Witness for C9: zero-byte originals give ratio 0, and a 4-byte original
with a 4-byte output gives ratio 100. -/
theorem c9_witness :
    (per_file_report (fun _ => 0) exPathA exPathB).2.2 = 0 ∧
    (per_file_report (fun _ => 4) exPathA exPathB).2.2 = 100 ∧
    overall_ratio (fun _ => 0) [(exPathA, some exPathB)] = 0 := by
  refine ⟨(c9_ratio_zero_guard.1 (fun _ => 0) exPathA exPathB).1 rfl, ?_,
    (c9_ratio_zero_guard.2 (fun _ => 0) [(exPathA, some exPathB)]).1 rfl⟩
  have h := (c9_ratio_zero_guard.1 (fun _ => 4) exPathA exPathB).2 (by norm_num)
  rw [h]
  norm_num

/-- C10: discovery never selects the tool's own outputs — every path
`find_images` returns has a lower-cased extension in the allow-list, the
allow-list does not contain `.jxl`, and so no returned path has the `.jxl`
extension. -/
theorem c10_allowlist_excludes_jxl (c : ImageConverter) (fs : FSTree) (p : Path)
    (hp : p ∈ find_images c fs) :
    str_lower p.suffix ∈ SUPPORTED_FORMATS ∧ (".jxl" : String) ∉ SUPPORTED_FORMATS ∧
    str_lower p.suffix ≠ ".jxl" := by
  have hmem : str_lower p.suffix ∈ SUPPORTED_FORMATS := by
    unfold find_images at hp
    simp only [List.mem_flatMap, List.mem_filterMap] at hp
    obtain ⟨e, _, file, _, hcond⟩ := hp
    by_cases h : str_lower (Path.suffix ⟨e.1, file⟩) ∈ SUPPORTED_FORMATS
    · rw [if_pos h] at hcond
      obtain rfl : (⟨e.1, file⟩ : Path) = p := by injection hcond
      exact h
    · rw [if_neg h] at hcond
      cases hcond
  refine ⟨hmem, by decide, ?_⟩
  intro hEq
  rw [hEq] at hmem
  exact absurd hmem (by decide)

/-- Witness for C10: the upper-cased `a.JPG` at the top of the readable
sample tree is discovered and its lower-cased suffix is allow-listed. -/
theorem c10_witness :
    str_lower (Path.suffix ⟨"/top", "a.JPG"⟩) ∈ SUPPORTED_FORMATS ∧
    (".jxl" : String) ∉ SUPPORTED_FORMATS ∧
    str_lower (Path.suffix ⟨"/top", "a.JPG"⟩) ≠ ".jxl" :=
  c10_allowlist_excludes_jxl exConverter exReadableTree ⟨"/top", "a.JPG"⟩ (by decide)

/-- Walking a concatenated list of subtrees walks each part in turn. -/
theorem walkForest_append (l1 l2 : List FSTree) (path : String) :
    walkForest (l1 ++ l2) path = walkForest l1 path ++ walkForest l2 path := by
  induction l1 with
  | nil => simp [walkForest]
  | cons t ts ih => simp [walkForest, ih]

/-- C6 counterexample: a root directory whose only image sits inside an
unreadable subdirectory.  `find_images` returns the ordinary empty list —
its type raises nothing and carries no error value — although the tree holds
one eligible image (the readability-blind enumeration filtered by the same
allow-list test finds it), so the work is undercounted and no error reaches
the caller, contradicting the claimed fatal discovery error. -/
theorem c6_counterexample :
    find_images (ImageConverter.init "/top" 8 7) exUnreadableTree = [] ∧
    (FSTree.allFilesFrom exUnreadableTree "/top").filterMap
        (fun p => if str_lower p.suffix ∈ SUPPORTED_FORMATS then some p else none) =
      [⟨"/top/secret", "x.png"⟩] := by
  decide

/-- C6 amended: an unreadable subdirectory is silently skipped, never fatal —
`os.walk` with its default `onerror=None` yields nothing for a directory it
cannot scan, so `find_images` always returns normally, a run whose root has
an unreadable subdirectory returns exactly the files found under the
readable part of the tree (possibly undercounting the work), and an
unreadable root yields the empty list rather than an error. -/
theorem c6_amended_unreadable_silently_skipped :
    (∀ (c : ImageConverter) (n : String) (subs : List FSTree) (files : List String)
       (m : String) (bsubs : List FSTree) (bfiles : List String),
       find_images c (.node n true (subs ++ [.node m false bsubs bfiles]) files) =
         find_images c (.node n true subs files)) ∧
    (∀ (c : ImageConverter) (n : String) (subs : List FSTree) (files : List String),
       find_images c (.node n false subs files) = []) := by
  constructor
  · intro c n subs files m bsubs bfiles
    simp [find_images, FSTree.walkFrom, walkForest_append, walkForest]
  · intro c n subs files
    simp [find_images, FSTree.walkFrom]

/-- Characterization of the collected `converted_files`: the fold appends,
in completion order, one pair per successful conversion — the original path
with the output-path component of its result tuple. -/
theorem convert_all_fold_converted (c : ImageConverter) (envOf : Path → Env) :
    ∀ (order : List Path) (st : RunLists),
      (order.foldl (fun st img => recordOutcome st (convert_image c (envOf img) img))
          st).converted_files =
        st.converted_files ++
          (order.filter (fun p => (convert_image c (envOf p) p).1)).map
            (fun p => (p, (convert_image c (envOf p) p).2.2.1)) := by
  intro order
  induction order with
  | nil => intro st; simp
  | cons a l ih =>
      intro st
      simp only [List.foldl_cons]
      rw [ih]
      rcases hr : convert_image c (envOf a) a with ⟨b, o, np, e⟩
      have ho : o = a := by
        have h := convert_image_original c (envOf a) a
        rw [hr] at h
        exact h
      subst ho
      cases b
      · simp [recordOutcome, List.filter_cons, hr]
      · simp [recordOutcome, List.filter_cons, hr]

/-- C7 counterexample: one file is converted successfully while 100 bytes
long, then shrinks to 50 bytes before the summary is printed.  The identical
run state yields a summary total of 100 under the conversion-time filesystem
but 50 under the summary-time filesystem: the reported totals follow the
filesystem at summary time, so the sizes were re-read rather than captured
when the conversion returned (the result tuple of `convert_image` carries no
sizes at all). -/
theorem c7_counterexample :
    (convert_image exConverter exEnvSuccess exPathA).1 = true ∧
    total_original_bytes (fun _ => 100)
        (convert_all_lists exConverter (fun _ => exEnvSuccess)
          [exPathA]).converted_files = 100 ∧
    total_original_bytes (fun _ => 50)
        (convert_all_lists exConverter (fun _ => exEnvSuccess)
          [exPathA]).converted_files = 50 ∧
    (50 : Nat) ≠ 100 := by
  decide

/-- C7 amended: the summary byte totals re-stat the filesystem — for any run
and any size function `stat` in effect at summary time, the total of
original bytes printed by line 145 equals the sum of `stat` over exactly the
originals whose conversion succeeded, whatever the sizes were when each
conversion returned (the per-file figures of lines 124–126 likewise stat the
files when each outcome is processed). -/
theorem c7_amended_summary_restats (c : ImageConverter) (envOf : Path → Env)
    (order : List Path) (stat : Path → Nat) :
    total_original_bytes stat (convert_all_lists c envOf order).converted_files =
      ((order.filter (fun p => (convert_image c (envOf p) p).1)).map stat).sum := by
  unfold total_original_bytes convert_all_lists
  rw [convert_all_fold_converted]
  have hfun : ((fun f : Path × Option Path => stat f.1) ∘
      fun p => (p, (convert_image c (envOf p) p).2.2.1)) = stat := by
    funext p
    rfl
  simp only [List.nil_append, List.map_map, hfun]

end Img2JXL
